import Mathlib

/-!
Shallow embedding of the level-session state machine and scoring engine of the
English-words-game repository (src/App.tsx, src/types.ts, and the
GoogleSheetsService file).

Modelling conventions:
* React `useState` fields become fields of `AppState`; an event handler becomes a
  function from the pre-event committed state to the post-event committed state.
  Functional updaters (`set (prev => ...)`) act on the latest state, while plain
  reads inside a handler see the values captured at render time.  In particular
  `finishLevel` reads the render-time `userAnswers`, which does NOT yet contain
  the entry appended by the enclosing `handleAnswer` call: the model threads that
  stale list explicitly.
* JavaScript numbers are modelled by `ℚ`.  For the one comparison that matters
  (`accuracy >= 90` with at most 50 questions) double rounding error is far below
  the minimum nonzero distance `|100*c/n - 90| ≥ 0.2`, and `(9/10)*100` rounds to
  exactly `90.0` in doubles, so the `ℚ` model and the double model agree on the
  comparison whenever `n > 0`.  For `n = 0` JavaScript produces `NaN` where `ℚ`
  division yields `0`; both make `accuracy >= 90` false, which is the only use.
* Timestamps, confetti, speech synthesis and string formatting are omitted:
  no claim mentions them.
* External collaborators (the Gemini calls and the Google-Sheets sink) are passed
  in as explicit arguments describing what their awaited promise did.
-/

namespace WordsGame

/-- A raw word/translation pair, as returned by the word sources
(`MOCK_WORDS`, `fetchLevelWords`, `generateLevelWords`). -/
structure RawPair where
  word : String
  translation : String
deriving Repr, DecidableEq

/-- `Word` from src/types.ts. -/
structure Word where
  id : Nat
  word : String
  translation : String
  options : List String
  correctAnswer : String
deriving Repr, DecidableEq

/-- One element of the `userAnswers` state array in App.tsx. -/
structure AnswerEntry where
  wordId : Nat
  selected : String
  isCorrect : Bool
deriving Repr, DecidableEq

/-- `GameState` from src/types.ts. -/
inductive GameState where
  | LOBBY
  | PLAYING
  | RESULT
  | SUMMARY
deriving Repr, DecidableEq

/-- The claim-relevant fields of `GameRecord` from src/types.ts.
`playerNo`, `playerId` and the formatted time strings are omitted;
`accuracy` is kept as the number computed on line 114 of App.tsx
(the source stores `accuracy.toFixed(2) + "%"`). -/
structure GameRecord where
  maxLevel : Nat
  totalWords : Nat
  correctCount : Nat
  accuracy : ℚ
deriving Repr, DecidableEq

/-- The committed React state of the `App` component (App.tsx lines 45-53),
restricted to the claim-relevant fields, plus `sinkCalls`: the list of records
the component has handed to `sheetsService.saveRecord`. -/
structure AppState where
  gameState : GameState
  currentLevel : Nat
  words : List Word
  currentIndex : Nat
  userAnswers : List AnswerEntry
  unlockedLevel : Nat
  isLoading : Bool
  sinkCalls : List GameRecord
deriving Repr, DecidableEq

/-- Runtime failures of the modelled handlers.  `typeError` is the JavaScript
`TypeError` raised when a property of `undefined` is read.  `noActiveQuestion` is
modelled from the spec: it names the `NoActiveQuestion` error the specification
assigns to submitting an answer after session completion; no code in the
repository constructs it. -/
inductive JsError where
  | typeError
  | noActiveQuestion
deriving Repr, DecidableEq

/-- App.tsx line 113: `userAnswers.filter(a => a.isCorrect).length`. -/
def correctCountOf (answers : List AnswerEntry) : Nat :=
  (answers.filter (fun a => a.isCorrect)).length

/-- App.tsx line 114: `(correctCount / words.length) * 100`. -/
def accuracyOf (answers : List AnswerEntry) (totalWords : Nat) : ℚ :=
  ((correctCountOf answers : ℚ) / (totalWords : ℚ)) * 100

/-- App.tsx line 115: `accuracy >= 90`. -/
def passedOf (answers : List AnswerEntry) (totalWords : Nat) : Bool :=
  decide ((90 : ℚ) ≤ accuracyOf answers totalWords)

/-- The pure computation of `finishLevel` (App.tsx lines 110-139): scoring, the
progression update, and the record assembly.  `staleAnswers` is the
`userAnswers` value `finishLevel` actually reads: the render-time list, which
does not contain the answer appended by the `handleAnswer` call that invoked it.
Returns the new `unlockedLevel` and the assembled record. -/
def finishLevelCompute (staleAnswers : List AnswerEntry) (words : List Word)
    (currentLevel unlockedLevel : Nat) : Nat × GameRecord :=
  let correctCount := correctCountOf staleAnswers
  let accuracy := accuracyOf staleAnswers words.length
  let passed := passedOf staleAnswers words.length
  let newUnlocked :=
    if passed then
      if currentLevel = unlockedLevel ∧ unlockedLevel < 10 then unlockedLevel + 1
      else unlockedLevel
    else unlockedLevel
  (newUnlocked,
   { maxLevel := currentLevel
     totalWords := words.length
     correctCount := correctCount
     accuracy := accuracy })

/-- `handleAnswer` (App.tsx lines 93-108), together with the `finishLevel` call
it makes on the final question.  `saveOk` records whether the awaited
`sheetsService.saveRecord` promise resolved; when it rejects, execution of
`finishLevel` stops at the `await` (there is no try/catch), so
`setGameState('RESULT')` never runs, while `setUserAnswers` and
`setUnlockedLevel` were already called before the `await`.  The record has been
handed to the sink either way, so `sinkCalls` grows in both cases.
When `words[currentIndex]` is `undefined`, reading `.correctAnswer` raises a
`TypeError` before any state update. -/
def handleAnswer (saveOk : Bool) (s : AppState) (selected : String) :
    Except JsError AppState :=
  match s.words[s.currentIndex]? with
  | none => Except.error JsError.typeError
  | some currentWord =>
    let isCorrect := selected == currentWord.correctAnswer
    let entry : AnswerEntry :=
      { wordId := currentWord.id, selected := selected, isCorrect := isCorrect }
    let newAnswers := s.userAnswers ++ [entry]
    if s.currentIndex < s.words.length - 1 then
      Except.ok { s with userAnswers := newAnswers, currentIndex := s.currentIndex + 1 }
    else
      let fin := finishLevelCompute s.userAnswers s.words s.currentLevel s.unlockedLevel
      if saveOk then
        Except.ok { s with userAnswers := newAnswers, unlockedLevel := fin.1,
                           sinkCalls := s.sinkCalls ++ [fin.2],
                           gameState := GameState.RESULT }
      else
        Except.ok { s with userAnswers := newAnswers, unlockedLevel := fin.1,
                           sinkCalls := s.sinkCalls ++ [fin.2] }

/-- `renderResult` (App.tsx lines 279-281) recomputes `passed` from the
committed `userAnswers` array, which at that point contains every answer. -/
def renderResultPassed (s : AppState) : Bool :=
  passedOf s.userAnswers s.words.length

/-- Submit a list of answers one after another. -/
def runAnswers (saveOk : Bool) : AppState → List String → Except JsError AppState
  | s, [] => Except.ok s
  | s, sel :: rest =>
    match handleAnswer saveOk s sel with
    | Except.ok s2 => runAnswers saveOk s2 rest
    | Except.error e => Except.error e

/-- The `catch` branch of `generateDistractors` (geminiService lines 446-449):
on any error the placeholder list is returned, so the call never fails.
`response` is what the Gemini call produced: `Except.error ()` for a thrown
error, `Except.ok l` for a parsed JSON array `l` (whose contents are
unconstrained — the model may return anything, including the correct
translation or duplicates). -/
def generateDistractors (response : Except Unit (List String)) : List String :=
  match response with
  | Except.ok l => l
  | Except.error _ => ["错误选项1", "错误选项2", "错误选项3"]

/-- App.tsx line 70: `[...distractors, w.translation].sort(() => Math.random() - 0.5)`.
The construction of the option array before shuffling. -/
def optionPool (distractors : List String) (translation : String) : List String :=
  distractors ++ [translation]

/-- One step of the word preparation loop (App.tsx lines 68-78): build the
`Word` object for raw pair `w` at position `idx`, where `distractors` is what
`generateDistractors` returned and `shuffle` is the behaviour of
`.sort(() => Math.random() - 0.5)` on this particular array (some permutation
whose choice depends on the random comparator results). -/
def prepareWord (distractors : List String) (shuffle : List String → List String)
    (idx : Nat) (w : RawPair) : Word :=
  { id := idx
    word := w.word
    translation := w.translation
    options := shuffle (optionPool distractors w.translation)
    correctAnswer := w.translation }

/-- The word preparation of `startLevel` (App.tsx lines 67-79):
`rawWords.slice(0, 50).map((w, idx) => ...)`.  `distractorsFor` gives the
distractor list the Word Source returned for each pair, and `shuffle idx` the
sort behaviour for the word at position `idx`. -/
def prepareWords (distractorsFor : String → String → List String)
    (shuffle : Nat → List String → List String) (raws : List RawPair) : List Word :=
  (raws.take 50).enum.map (fun p =>
    prepareWord (distractorsFor p.2.word p.2.translation) (shuffle p.1) p.1 p.2)

/-- `MOCK_WORDS` (App.tsx lines 29-42): a record with an entry only for level 1.
`MOCK_WORDS[level]` is `undefined` for every other level, and a JavaScript
array — even an empty one — is truthy, so `MOCK_WORDS[level] || fallback`
takes the mock exactly when the record has an entry for `level`. -/
def MOCK_WORDS (level : Nat) : Option (List RawPair) :=
  if level = 1 then
    some [⟨"abandon", "放弃"⟩, ⟨"ability", "能力"⟩, ⟨"abroad", "在国外"⟩,
          ⟨"absolute", "绝对的"⟩, ⟨"academic", "学术的"⟩, ⟨"accent", "口音"⟩,
          ⟨"accept", "接受"⟩, ⟨"access", "接近；进入"⟩, ⟨"accident", "事故"⟩,
          ⟨"account", "账户；解释"⟩]
  else none

/-- `GoogleSheetsService.fetchLevelWords`: both branches — with and without a
sheet id — return the empty array (the sheet fetch is not implemented). -/
def fetchLevelWords (_level : Nat) : List RawPair := []

/-- `GoogleSheetsService.saveRecord`: logs the record and resolves; it never
rejects. -/
def saveRecord (_record : GameRecord) : Except Unit Unit := Except.ok ()

/-- `startLevel` (App.tsx lines 56-91) as a state transition.  `sheetsResult`
is what `sheetsService.fetchLevelWords(level)` resolved to (always `[]` for the
repository's service, see `fetchLevelWords`); `geminiResult` is what
`generateLevelWords(level)` did when invoked: `Except.error ()` for a rejected
promise, `Except.ok ws` for a parsed array `ws`.  A throw anywhere in the `try`
block is caught: only `console.error` runs and the `finally` clears the loading
flag, leaving every other field untouched.  Note that `startLevel` does not set
`currentLevel`; the lobby buttons call `setCurrentLevel` separately. -/
def startLevel (level : Nat) (sheetsResult : List RawPair)
    (geminiResult : Except Unit (List RawPair))
    (distractorsFor : String → String → List String)
    (shuffle : Nat → List String → List String) (s : AppState) : AppState :=
  let rawWords : Except Unit (List RawPair) :=
    if sheetsResult.length = 0 then
      match MOCK_WORDS level with
      | some ws => Except.ok ws
      | none => geminiResult
    else Except.ok sheetsResult
  match rawWords with
  | Except.error _ => { s with isLoading := false }
  | Except.ok raws =>
      { s with words := prepareWords distractorsFor shuffle raws
               currentIndex := 0
               userAnswers := []
               gameState := GameState.PLAYING
               isLoading := false }

/-- `startLevel` wired to the repository's sheets service, whose
`fetchLevelWords` always resolves to `[]`. -/
def startLevelRepo (level : Nat) (geminiResult : Except Unit (List RawPair))
    (distractorsFor : String → String → List String)
    (shuffle : Nat → List String → List String) (s : AppState) : AppState :=
  startLevel level (fetchLevelWords level) geminiResult distractorsFor shuffle s

/-!
Model of `.sort(() => Math.random() - 0.5)`.  The comparator ignores its
arguments and returns `Math.random() - 0.5`: negative with probability 1/2,
positive with probability 1/2 (zero has probability 0).  Each comparison the
sort makes is therefore an independent fair coin flip.  We model the sort as an
insertion sort driven by a stream of coin flips: `true` means the comparator
reported "keep the inserted element before the compared one".  Whatever
comparison sort the engine uses, the result is some permutation of the input;
insertion sort is the concrete algorithm used here to settle the distribution
question.
-/

/-- Insert `x` into `l`, consuming one coin flip per comparison: on `true` stop
here, on `false` move past the head.  Returns the remaining flips and the
resulting list.  An exhausted flip stream places the element immediately (the
distribution theorems only use streams long enough that this never happens). -/
def insertCoin : List Bool → String → List String → List Bool × List String
  | flips, x, [] => (flips, [x])
  | [], x, y :: ys => ([], x :: y :: ys)
  | f :: fs, x, y :: ys =>
    if f then (fs, x :: y :: ys)
    else
      let r := insertCoin fs x ys
      (r.1, y :: r.2)

/-- Insertion sort driven by coin flips: sort the tail, then insert the head. -/
def sortCoin : List Bool → List String → List Bool × List String
  | flips, [] => (flips, [])
  | flips, x :: xs =>
    let r := sortCoin flips xs
    insertCoin r.1 x r.2

/-- The shuffle produced by `.sort(() => Math.random() - 0.5)` when the
comparator's successive sign results are `flips`. -/
def shuffleCoins (flips : List Bool) (l : List String) : List String :=
  (sortCoin flips l).2

/-- All coin-flip streams of length `n`, each of probability `2⁻ⁿ`. -/
def boolLists : Nat → List (List Bool)
  | 0 => [[]]
  | n + 1 => (boolLists n).map (fun l => true :: l) ++
             (boolLists n).map (fun l => false :: l)

/-- A fixed four-element option pool (three distractors and a translation). -/
def fourOptions : List String := ["a", "b", "c", "d"]

/-- The number of length-6 flip streams under which the random-comparator sort
turns `fourOptions` into `p`.  Sorting four elements makes at most six
comparisons, so the 64 streams exhaust the randomness and each outcome listed
here has probability `(count of p) / 64`. -/
def permCount (p : List String) : Nat :=
  ((boolLists 6).filter (fun fs => shuffleCoins fs fourOptions == p)).length

/-! Concrete states used to evaluate the handlers. -/

/-- A prepared question whose correct answer is `"t"`. -/
def demoWord : Word :=
  { id := 0, word := "w", translation := "t", options := ["t", "x"], correctAnswer := "t" }

/-- A freshly started session on the question list `ws` (the state `startLevel`
leaves behind, with `currentLevel` and `unlockedLevel` both 1). -/
def sessionStart (ws : List Word) : AppState :=
  { gameState := GameState.PLAYING, currentLevel := 1, words := ws,
    currentIndex := 0, userAnswers := [], unlockedLevel := 1,
    isLoading := false, sinkCalls := [] }

/-- A one-question session about to receive its only answer. -/
def oneWordSession : AppState := sessionStart [demoWord]

/-- A session whose question list is empty; its `currentPosition` equals
`len(questions)`. -/
def emptySession : AppState := sessionStart []

/-- Ten identical questions with correct answer `"t"` (only `id` differs). -/
def tenWords : List Word := (List.range 10).map (fun i =>
  { id := i, word := "w", translation := "t", options := ["t", "x"], correctAnswer := "t" })

/-- Ten selections: the first one wrong, the remaining nine right. -/
def tenSelections : List String := "x" :: List.replicate 9 "t"

/-- A lobby state for a player who has already unlocked level 5. -/
def lobbyState : AppState :=
  { gameState := GameState.LOBBY, currentLevel := 2, words := [],
    currentIndex := 0, userAnswers := [], unlockedLevel := 5,
    isLoading := false, sinkCalls := [] }

/-- The state after the first answer of a ten-question session. -/
def afterOneAnswer : AppState :=
  { gameState := GameState.PLAYING, currentLevel := 1, words := tenWords,
    currentIndex := 1, userAnswers := [⟨0, "t", true⟩], unlockedLevel := 1,
    isLoading := false, sinkCalls := [] }

/-! Helper lemmas. -/

theorem insertCoin_perm (flips : List Bool) (x : String) (l : List String) :
    (insertCoin flips x l).2.Perm (x :: l) := by
  induction flips generalizing l with
  | nil => cases l <;> simp [insertCoin]
  | cons f fs ih =>
    cases l with
    | nil => simp [insertCoin]
    | cons y ys =>
      by_cases hf : f
      · simp [insertCoin, hf]
      · simp only [insertCoin, hf, if_false]
        exact (((ih ys).cons y)).trans (List.Perm.swap x y ys)

theorem sortCoin_perm (flips : List Bool) (l : List String) :
    (sortCoin flips l).2.Perm l := by
  induction l generalizing flips with
  | nil => simp [sortCoin]
  | cons x xs ih =>
    simp only [sortCoin]
    exact (insertCoin_perm _ x _).trans ((ih _).cons x)

/-! Claim theorems. -/

/-- Claim C10: the Question Preparer uses at most the first 50 raw pairs (any
later pairs are dropped), and assigns each produced Question an id equal to its
0-based position in the truncated list, so the ids are unique and are exactly
`0 .. min(len(rawPairs), 50) - 1`. -/
theorem C10_take50_and_ids :
    ∀ (d : String → String → List String) (sh : Nat → List String → List String)
      (raws : List RawPair),
      prepareWords d sh raws = prepareWords d sh (raws.take 50) ∧
      (prepareWords d sh raws).length = min raws.length 50 ∧
      (prepareWords d sh raws).map Word.id = List.range (min raws.length 50) ∧
      ((prepareWords d sh raws).map Word.id).Nodup := by
  intro d sh raws
  have hids : (prepareWords d sh raws).map Word.id = List.range (min raws.length 50) := by
    simp only [prepareWords, List.map_map]
    have : ∀ p : Nat × RawPair,
        (Word.id ∘ fun p : Nat × RawPair =>
          prepareWord (d p.2.word p.2.translation) (sh p.1) p.1 p.2) p = Prod.fst p :=
      fun p => rfl
    rw [List.map_congr_left (fun p _ => this p), List.enum_map_fst, List.length_take,
      Nat.min_comm]
  refine ⟨by simp [prepareWords, List.take_take], ?_, hids, ?_⟩
  · have := congrArg List.length hids
    simpa using this
  · rw [hids]; exact List.nodup_range _


/-- All 24 arrangements of `fourOptions`, listed explicitly. -/
def perms4 : List (List String) :=
  [["a", "b", "c", "d"], ["a", "b", "d", "c"], ["a", "c", "b", "d"], ["a", "c", "d", "b"], ["a", "d", "b", "c"], ["a", "d", "c", "b"], ["b", "a", "c", "d"], ["b", "a", "d", "c"], ["b", "c", "a", "d"], ["b", "c", "d", "a"], ["b", "d", "a", "c"], ["b", "d", "c", "a"], ["c", "a", "b", "d"], ["c", "a", "d", "b"], ["c", "b", "a", "d"], ["c", "b", "d", "a"], ["c", "d", "a", "b"], ["c", "d", "b", "a"], ["d", "a", "b", "c"], ["d", "a", "c", "b"], ["d", "b", "a", "c"], ["d", "b", "c", "a"], ["d", "c", "a", "b"], ["d", "c", "b", "a"]]

/-- Claim C9 counterexample: the random-comparator shuffle is not uniform.
Under the fair-coin model of `() => Math.random() - 0.5`, the identity
arrangement of a four-element option set survives 8 of the 64 equally likely
comparison-outcome streams while the full reversal arises from only 1, so the
two permutations have probabilities 8/64 and 1/64 — not equal, refuting
"every permutation equally likely".  (Uniformity is impossible for any
comparison sort driven by fair coins: each probability is dyadic and 1/24 is
not.) -/
theorem C9_counterexample :
    permCount ["a", "b", "c", "d"] = 8 ∧ permCount ["d", "c", "b", "a"] = 1 ∧
    permCount ["d", "c", "b", "a"] < permCount ["a", "b", "c", "d"] := by decide

/-- Claim C9 amended: the shuffled options are always a permutation of the
constructed option set (distractors plus the correct translation), but the
permutation is NOT uniformly distributed: the 64 equally likely length-6
flip streams exhaust the randomness of sorting four options (their outcome
counts sum to 64 = 2^6) yet give different counts to different permutations. -/
theorem C9_amended_perm_not_uniform :
    (∀ (flips : List Bool) (dis : List String) (t : String),
      (shuffleCoins flips (optionPool dis t)).Perm (optionPool dis t)) ∧
    (perms4.map permCount).sum = 2 ^ 6 ∧
    permCount ["d", "c", "b", "a"] < permCount ["a", "b", "c", "d"] := by
  refine ⟨fun flips dis t => sortCoin_perm flips (optionPool dis t), by decide, by decide⟩

/-- Claim C5 counterexample: scoring a session with zero questions does not
fail.  `finishLevel` on an empty question list computes `correctCount = 0` and
`accuracy = (0/0)*100` — `NaN` in JavaScript, `0` in this rational model, and
under either reading `accuracy >= 90` is false — assembles a record with that
silent zero accuracy, and carries on; no `EmptySession` error exists anywhere
in the code. -/
theorem C5_counterexample :
    finishLevelCompute [] [] 3 5 =
      (5, { maxLevel := 3, totalWords := 0, correctCount := 0, accuracy := 0 }) := by
  norm_num [finishLevelCompute, passedOf, accuracyOf, correctCountOf]

/-- Claim C5 amended: for every session with zero questions, `score` does not
fail: there is no `EmptySession` error; the computation returns a silent zero
accuracy (`NaN` in JavaScript, since `0/0` is `NaN`; `0` in this model — both
fail the `>= 90` comparison), `passed` is false, the unlocked level is
untouched, and a record with `totalWords = 0`, `correctCount = 0` and the zero
accuracy is assembled. -/
theorem C5_amended_empty_session_scores :
    ∀ level unlocked : Nat,
      finishLevelCompute [] [] level unlocked =
        (unlocked,
         { maxLevel := level, totalWords := 0, correctCount := 0, accuracy := 0 }) ∧
      passedOf [] 0 = false ∧ accuracyOf [] 0 = 0 := by
  intro level unlocked
  refine ⟨?_, ?_, ?_⟩ <;>
    norm_num [finishLevelCompute, passedOf, accuracyOf, correctCountOf]

/-- Claim C6 counterexample: on the one session state the code can have with
`currentPosition == len(questions)` — the empty-question session, where both
are 0 — `handleAnswer` fails with a JavaScript `TypeError` (reading
`.correctAnswer` of `undefined`), not with a `NoActiveQuestion` error; no code
in the repository constructs `NoActiveQuestion`. -/
theorem C6_counterexample :
    emptySession.currentIndex = emptySession.words.length ∧
    handleAnswer true emptySession ("t") = Except.error JsError.typeError ∧
    decide (JsError.typeError = JsError.noActiveQuestion) = false :=
  ⟨rfl, rfl, rfl⟩

/-- Claim C6 amended: whenever `currentPosition >= len(questions)`,
`handleAnswer` fails before performing any state update — but with a
`TypeError` from reading a property of `undefined`, not with the spec's
`NoActiveQuestion` error.  (Completed nonempty sessions in this code sit at
`currentPosition = len(questions) - 1` with `gameState = RESULT`, a state this
guard does not cover.) -/
theorem C6_amended_type_error :
    ∀ (saveOk : Bool) (s : AppState) (sel : String),
      s.words.length ≤ s.currentIndex →
      handleAnswer saveOk s sel = Except.error JsError.typeError := by
  intro saveOk s sel h
  simp [handleAnswer, List.getElem?_eq_none h]

/-- Witness for C6: the guard of `C6_amended_type_error` holds at the empty
session and the conclusion evaluates there. -/
theorem C6_amended_type_error_witness :
    emptySession.words.length ≤ emptySession.currentIndex ∧
    handleAnswer false emptySession ("q") = Except.error JsError.typeError :=
  ⟨by decide, C6_amended_type_error false emptySession ("q") (by decide)⟩

end WordsGame

namespace WordsGame

/-- Claim C8 counterexample: with no sheet data (the repository's
`fetchLevelWords` always resolves to `[]`), no mock entry for level 2, and the
Gemini generator resolving to an empty array, `startLevel` does not fail: it
starts a `PLAYING` session whose question list is empty, instead of surfacing a
loading-failed state.  No `SourceUnavailable` error exists in the code. -/
theorem C8_counterexample :
    (startLevelRepo 2 (Except.ok []) (fun _ _ => []) (fun _ l => l) lobbyState).gameState =
      GameState.PLAYING ∧
    (startLevelRepo 2 (Except.ok []) (fun _ _ => []) (fun _ l => l) lobbyState).words = [] := by
  constructor <;> rfl

/-- Claim C8 amended: for a level with no mock entry, a thrown word-source
error is caught — the loading flag is cleared and nothing else changes, which
is the code's only loading-failed behaviour — but when every source returns
zero raw pairs without throwing, `startLevel` starts a `PLAYING` session with
an empty question list rather than failing; no `SourceUnavailable` error
exists. -/
theorem C8_amended_empty_sources :
    ∀ (level : Nat) (d : String → String → List String)
      (sh : Nat → List String → List String) (s : AppState),
      level ≠ 1 →
      startLevelRepo level (Except.error ()) d sh s = { s with isLoading := false } ∧
      startLevelRepo level (Except.ok []) d sh s =
        { s with words := [], currentIndex := 0, userAnswers := [],
                 gameState := GameState.PLAYING, isLoading := false } := by
  intro level d sh s hlevel
  constructor <;>
    simp [startLevelRepo, startLevel, fetchLevelWords, MOCK_WORDS, hlevel, prepareWords]

/-- Witness for C8: instantiating `C8_amended_empty_sources` at level 2 and the
lobby state. -/
theorem C8_amended_empty_sources_witness :
    (2 : Nat) ≠ 1 ∧
    startLevelRepo 2 (Except.error ()) (fun _ _ => []) (fun _ l => l) lobbyState =
      { lobbyState with isLoading := false } :=
  ⟨by decide,
   (C8_amended_empty_sources 2 (fun _ _ => []) (fun _ l => l) lobbyState (by decide)).1⟩

/-- Claim C4 counterexample: the Preparer performs no deduplication.  When the
Word Source returns a distractor list that contains the correct translation —
possible, since the Gemini response is parsed and used as-is — the option set
contains the correct answer twice and is not duplicate-free, even though the
shuffle (here: the identity permutation, produced by six "keep order"
comparator results) is a legitimate sort outcome. -/
theorem C4_counterexample :
    (prepareWord (generateDistractors (Except.ok [("t"), ("b"), ("c")]))
        (shuffleCoins [true, true, true, true, true, true]) 0 ⟨"w", "t"⟩).options.count
        ("t") = 2 ∧
    decide ((prepareWord (generateDistractors (Except.ok [("t"), ("b"), ("c")]))
        (shuffleCoins [true, true, true, true, true, true]) 0 ⟨"w", "t"⟩).options.Nodup) =
      false := by
  exact ⟨by decide, by decide⟩

/-- Claim C4 amended: a produced Question's options contain the correct answer
exactly once and no duplicate entries PROVIDED the distractor list is
duplicate-free and does not contain the correct translation; the code never
enforces that proviso (it concatenates and shuffles as-is), and the
counterexample shows it failing when the proviso is violated. -/
theorem C4_amended_options_nodup :
    ∀ (dis : List String) (t w : String) (idx : Nat)
      (shuffle : List String → List String),
      (∀ l, (shuffle l).Perm l) → dis.Nodup → t ∉ dis →
      (prepareWord dis shuffle idx ⟨w, t⟩).options.Nodup ∧
      (prepareWord dis shuffle idx ⟨w, t⟩).options.count t = 1 := by
  intro dis t w idx shuffle hperm hnodup hmem
  have hpool : (optionPool dis t).Nodup := by
    simp [optionPool, List.nodup_append, hnodup, hmem]
  have hopt : (prepareWord dis shuffle idx ⟨w, t⟩).options = shuffle (optionPool dis t) := rfl
  constructor
  · rw [hopt]
    exact ((hperm (optionPool dis t)).nodup_iff).mpr hpool
  · rw [hopt, (hperm (optionPool dis t)).count_eq]
    simp [optionPool, List.count_eq_zero.mpr hmem]

/-- Witness for C4: `C4_amended_options_nodup` applied to three well-behaved
distractors and the identity shuffle. -/
theorem C4_amended_options_nodup_witness :
    (["x", "y", "z"] : List String).Nodup ∧ ("t" : String) ∉ (["x", "y", "z"] : List String) ∧
    (prepareWord ["x", "y", "z"] id 7 ⟨"w", "t"⟩).options.count ("t") = 1 :=
  ⟨by decide, by decide,
   (C4_amended_options_nodup ["x", "y", "z"] ("t") ("w") 7 id
     (fun l => List.Perm.refl l) (by decide) (by decide)).2⟩

end WordsGame

namespace WordsGame

/-- Case analysis for a successful `handleAnswer` call: the question under the
cursor exists, and the post-state is one of the three success shapes (advance,
finish with resolved save, finish with rejected save). -/
theorem handleAnswer_ok_elim {saveOk : Bool} {s : AppState} {sel : String} {s2 : AppState}
    (h : handleAnswer saveOk s sel = Except.ok s2) :
    ∃ w, s.words[s.currentIndex]? = some w ∧
      ((s.currentIndex < s.words.length - 1 ∧
        s2 = { s with userAnswers := s.userAnswers ++ [⟨w.id, sel, sel == w.correctAnswer⟩],
                      currentIndex := s.currentIndex + 1 }) ∨
       (¬ s.currentIndex < s.words.length - 1 ∧ saveOk = true ∧
        s2 = { s with
          userAnswers := s.userAnswers ++ [⟨w.id, sel, sel == w.correctAnswer⟩],
          unlockedLevel :=
            (finishLevelCompute s.userAnswers s.words s.currentLevel s.unlockedLevel).1,
          sinkCalls := s.sinkCalls ++
            [(finishLevelCompute s.userAnswers s.words s.currentLevel s.unlockedLevel).2],
          gameState := GameState.RESULT }) ∨
       (¬ s.currentIndex < s.words.length - 1 ∧ saveOk = false ∧
        s2 = { s with
          userAnswers := s.userAnswers ++ [⟨w.id, sel, sel == w.correctAnswer⟩],
          unlockedLevel :=
            (finishLevelCompute s.userAnswers s.words s.currentLevel s.unlockedLevel).1,
          sinkCalls := s.sinkCalls ++
            [(finishLevelCompute s.userAnswers s.words s.currentLevel s.unlockedLevel).2] })) := by
  cases hw : s.words[s.currentIndex]? with
  | none => simp [handleAnswer, hw] at h
  | some w =>
    refine ⟨w, rfl, ?_⟩
    by_cases hlt : s.currentIndex < s.words.length - 1
    · left
      refine ⟨hlt, ?_⟩
      simp only [handleAnswer, hw, hlt, if_true] at h
      simpa using h.symm
    · cases saveOk with
      | false =>
        right; right
        refine ⟨hlt, rfl, ?_⟩
        simp only [handleAnswer, hw, hlt, if_false, Bool.false_eq_true, if_neg] at h
        simpa using h.symm
      | true =>
        right; left
        refine ⟨hlt, rfl, ?_⟩
        simp only [handleAnswer, hw, hlt, if_false, if_true] at h
        simpa using h.symm

end WordsGame

namespace WordsGame

/-- Claim C3 counterexample: submitting the only answer of a one-question
session appends the entry but leaves `currentPosition` at 0, so after this
`submitAnswer` call `len(answers) = 1 ≠ 0 = currentPosition`; and the session
is complete (`gameState = RESULT`) even though `currentPosition ≠
len(questions)` — completion is not `currentPosition == len(questions)`. -/
theorem C3_counterexample :
    (handleAnswer true oneWordSession ("t")).map
      (fun s => (s.userAnswers.length, s.currentIndex, s.words.length, s.gameState)) =
      Except.ok (1, 0, 1, GameState.RESULT) ∧
    (handleAnswer true oneWordSession ("t")).map
      (fun s => decide (s.userAnswers.length = s.currentIndex)) = Except.ok false ∧
    (handleAnswer true oneWordSession ("t")).map
      (fun s => decide (s.currentIndex = s.words.length)) = Except.ok false := by
  refine ⟨?_, ?_, ?_⟩ <;>
    norm_num [Except.map, handleAnswer, finishLevelCompute, passedOf, accuracyOf,
      correctCountOf, oneWordSession, sessionStart, demoWord]

/-- Claim C3 amended: every successful `submitAnswer` appends exactly one
AnswerEntry and leaves the question list unchanged; on a non-final question it
increments `currentPosition` by exactly 1 (preserving
`len(answers) == currentPosition` when it held before); on the final question
`currentPosition` stays at `len(questions) - 1` while the answer is still
appended — so at completion `len(answers) = currentPosition + 1` — and (when
the save resolves) the session transitions to `RESULT`, which is how completion
is signalled; `currentPosition` never exceeds `len(questions) - 1`. -/
theorem C3_amended_step_shape :
    ∀ (saveOk : Bool) (s : AppState) (sel : String) (s2 : AppState),
      handleAnswer saveOk s sel = Except.ok s2 →
      s2.userAnswers.length = s.userAnswers.length + 1 ∧
      s2.words = s.words ∧
      (s.currentIndex < s.words.length - 1 →
        s2.currentIndex = s.currentIndex + 1 ∧ s2.gameState = s.gameState) ∧
      (¬ s.currentIndex < s.words.length - 1 →
        s2.currentIndex = s.currentIndex ∧
        (saveOk = true → s2.gameState = GameState.RESULT)) ∧
      (s.currentIndex < s.words.length → s2.currentIndex < s2.words.length) ∧
      (s.userAnswers.length = s.currentIndex → s.currentIndex < s.words.length - 1 →
        s2.userAnswers.length = s2.currentIndex) := by
  intro saveOk s sel s2 h
  obtain ⟨w, hw, hcase⟩ := handleAnswer_ok_elim h
  rcases hcase with ⟨hlt, rfl⟩ | ⟨hlt, hsv, rfl⟩ | ⟨hlt, hsv, rfl⟩ <;>
    · simp_all
      try omega

/-- Witness for C3: the first answer of a ten-question session advances the
position from 0 to 1 while appending one entry. -/
theorem C3_amended_step_shape_witness :
    handleAnswer true (sessionStart tenWords) ("t") = Except.ok afterOneAnswer ∧
    afterOneAnswer.userAnswers.length = (sessionStart tenWords).userAnswers.length + 1 ∧
    afterOneAnswer.currentIndex = 1 :=
  have h : handleAnswer true (sessionStart tenWords) ("t") = Except.ok afterOneAnswer := by
    rfl
  ⟨h, (C3_amended_step_shape true (sessionStart tenWords) ("t") afterOneAnswer h).1, rfl⟩

end WordsGame

namespace WordsGame

/-- Claim C7 counterexample: when the Record Sink's save rejects
(`saveOk = false`) on the final answer of a one-question session, the session
does NOT transition to the result-shown state: `finishLevel` has no try/catch,
so the rejection skips `setGameState('RESULT')` and the state remains
`PLAYING`. -/
theorem C7_counterexample :
    (handleAnswer false oneWordSession ("t")).map (fun s => s.gameState) =
      Except.ok GameState.PLAYING ∧
    decide (GameState.PLAYING = GameState.RESULT) = false := by
  refine ⟨?_, rfl⟩
  norm_num [Except.map, handleAnswer, finishLevelCompute, passedOf, accuracyOf,
    correctCountOf, oneWordSession, sessionStart, demoWord]

/-- Claim C7 amended: `finishLevel` does not catch save failures.  On the final
question, the record is handed to the sink either way, and the progression
update has already been applied before the `await`; but if the save rejects,
the `RESULT` transition is skipped and `gameState` stays what it was, so the
player is not shown the result.  Only because the repository's
`sheetsService.saveRecord` always resolves (it just logs) does every completed
session reach `RESULT` in practice. -/
theorem C7_amended_save_failure :
    ∀ (s : AppState) (sel : String),
      ¬ s.currentIndex < s.words.length - 1 →
      s.currentIndex < s.words.length →
      (handleAnswer false s sel).map (fun t => t.gameState) = Except.ok s.gameState ∧
      (handleAnswer false s sel).map (fun t => t.sinkCalls) =
        Except.ok (s.sinkCalls ++
          [(finishLevelCompute s.userAnswers s.words s.currentLevel s.unlockedLevel).2]) ∧
      (handleAnswer false s sel).map (fun t => t.unlockedLevel) =
        Except.ok (finishLevelCompute s.userAnswers s.words s.currentLevel s.unlockedLevel).1 ∧
      (handleAnswer true s sel).map (fun t => t.gameState) = Except.ok GameState.RESULT ∧
      saveRecord (finishLevelCompute s.userAnswers s.words s.currentLevel s.unlockedLevel).2 =
        Except.ok () := by
  intro s sel hfin hlt
  have hw : s.words[s.currentIndex]? = some s.words[s.currentIndex] :=
    List.getElem?_eq_getElem hlt
  refine ⟨?_, ?_, ?_, ?_, rfl⟩ <;> simp [handleAnswer, hw, hfin, Except.map]

/-- Witness for C7: instantiating `C7_amended_save_failure` at the one-question
session shows that with the always-resolving repository sink the session does
reach `RESULT`. -/
theorem C7_amended_save_failure_witness :
    (¬ oneWordSession.currentIndex < oneWordSession.words.length - 1) ∧
    oneWordSession.currentIndex < oneWordSession.words.length ∧
    (handleAnswer true oneWordSession ("t")).map (fun t => t.gameState) =
      Except.ok GameState.RESULT :=
  ⟨by decide, by decide,
   (C7_amended_save_failure oneWordSession ("t") (by decide) (by decide)).2.2.2.1⟩

/-- Claim C1: the progression rule.  Writing `u2` for the unlocked level
`finishLevel` computes: the level never decreases (`u ≤ u2`), never exceeds
`max u 10` (so, starting from 1, never exceeds 10), and is incremented — by
exactly 1 — precisely when the session passed (the `passed` value the scoring
step computes), the session's level equals the current unlocked level, and the
unlocked level is below 10; replaying a level other than the frontier changes
nothing; and no other operation changes the unlocked level: `startLevel`
preserves it, and a successful `handleAnswer` either leaves it unchanged
(non-final question) or sets it to the `finishLevel` result. -/
theorem C1_progression_rule :
    (∀ (answers : List AnswerEntry) (words : List Word) (level unlocked : Nat),
      unlocked ≤ (finishLevelCompute answers words level unlocked).1 ∧
      (finishLevelCompute answers words level unlocked).1 ≤ max unlocked 10 ∧
      ((finishLevelCompute answers words level unlocked).1 = unlocked + 1 ↔
        passedOf answers words.length = true ∧ level = unlocked ∧ unlocked < 10) ∧
      (level ≠ unlocked → (finishLevelCompute answers words level unlocked).1 = unlocked)) ∧
    (∀ (level : Nat) (sheets : List RawPair) (gem : Except Unit (List RawPair))
       (d : String → String → List String) (sh : Nat → List String → List String)
       (s : AppState),
      (startLevel level sheets gem d sh s).unlockedLevel = s.unlockedLevel) ∧
    (∀ (saveOk : Bool) (s : AppState) (sel : String) (s2 : AppState),
      handleAnswer saveOk s sel = Except.ok s2 →
      (s.currentIndex < s.words.length - 1 → s2.unlockedLevel = s.unlockedLevel) ∧
      (s2.unlockedLevel = s.unlockedLevel ∨
        s2.unlockedLevel =
          (finishLevelCompute s.userAnswers s.words s.currentLevel s.unlockedLevel).1)) := by
  refine ⟨?_, ?_, ?_⟩
  · intro answers words level unlocked
    have h1 : (finishLevelCompute answers words level unlocked).1 =
        if passedOf answers words.length = true then
          if level = unlocked ∧ unlocked < 10 then unlocked + 1 else unlocked
        else unlocked := rfl
    rw [h1]
    by_cases hp : passedOf answers words.length = true
    · rw [if_pos hp]
      by_cases hc : level = unlocked ∧ unlocked < 10
      · rw [if_pos hc]
        exact ⟨by omega, by omega, ⟨fun _ => ⟨hp, hc.1, hc.2⟩, fun _ => rfl⟩,
          fun hne => absurd hc.1 hne⟩
      · rw [if_neg hc]
        exact ⟨le_refl _, by omega, ⟨fun he => by omega, fun hr => absurd ⟨hr.2.1, hr.2.2⟩ hc⟩,
          fun _ => rfl⟩
    · rw [if_neg hp]
      exact ⟨le_refl _, by omega, ⟨fun he => by omega, fun hr => absurd hr.1 hp⟩, fun _ => rfl⟩
  · intro level sheets gem d sh s
    simp only [startLevel]
    split
    · rfl
    · rfl
  · intro saveOk s sel s2 h
    obtain ⟨w, hw, hcase⟩ := handleAnswer_ok_elim h
    rcases hcase with ⟨hlt, rfl⟩ | ⟨hlt, hsv, rfl⟩ | ⟨hlt, hsv, rfl⟩
    · exact ⟨fun _ => rfl, Or.inl rfl⟩
    · exact ⟨fun hl => absurd hl hlt, Or.inr rfl⟩
    · exact ⟨fun hl => absurd hl hlt, Or.inr rfl⟩

/-- Witness for C1: a passed one-question frontier session advances the
unlocked level from 1 to 2. -/
theorem C1_progression_rule_witness :
    (passedOf [⟨0, "t", true⟩] [demoWord].length = true ∧ 1 = 1 ∧ 1 < 10) ∧
    (finishLevelCompute [⟨0, "t", true⟩] [demoWord] 1 1).1 = 1 + 1 :=
  have hp : passedOf [⟨0, "t", true⟩] [demoWord].length = true := by
    norm_num [passedOf, accuracyOf, correctCountOf, demoWord]
  ⟨⟨hp, rfl, by norm_num⟩,
   ((C1_progression_rule.1 [⟨0, "t", true⟩] [demoWord] 1 1).2.2.1).mpr ⟨hp, rfl, by norm_num⟩⟩

end WordsGame

namespace WordsGame

/-- Claim C2, evaluated at the failing input: a ten-question session answered
wrong on the first question and right on the other nine, including the last.
Among the recorded answers 9 of 10 are correct, so the claimed scoring gives
`accuracyPercent = 90.0` and a pass — and the result screen, which recomputes
from the committed answers, indeed shows a pass (`renderResultPassed = true`).
But `finishLevel` reads the render-time `userAnswers`, which lacks the final
answer: it scores 8 of 10, records `accuracy = 80`, treats the session as
failed, and leaves `unlockedLevel` at 1. -/
theorem C2_stale_scoring_eval :
    (runAnswers true (sessionStart tenWords) tenSelections).map (fun s =>
      (s.unlockedLevel, s.sinkCalls.map (fun r => (r.correctCount, r.accuracy)),
       renderResultPassed s, correctCountOf s.userAnswers,
       accuracyOf s.userAnswers s.words.length)) =
      Except.ok (1, [(8, 80)], true, 9, 90) := by
  norm_num [Except.map, runAnswers, handleAnswer, finishLevelCompute, passedOf,
    accuracyOf, correctCountOf, renderResultPassed, sessionStart, tenWords,
    tenSelections, List.range_succ, show (("x" : String) == "t") = false from rfl,
    show (("t" : String) == "t") = true from rfl]

end WordsGame
